import Mathlib

/-!
Shallow embedding of the randd utility (cofob/randd, src/main.rs) and a
verification of its specification claims.

Conventions used throughout:

* Rust u64 values are modelled as Nat; arithmetic that can wrap in Rust
  (release-mode overflow semantics) carries an explicit `% U64`.
* Fallible Rust operations are modelled with Except/Option.  The I/O
  environment (whether each file operation succeeds, what a read returns,
  the raw output of the random generator) is passed in explicitly as data:
  SetupEnv for the pre-loop phase, one IterEnv per loop iteration.
* The format strings the source attaches to errors are mapped to error
  enumerations; the doc comment of each constructor cites the message.
* Wall-clock effects of the source (progress thread, status printing, the
  throughput sleep) touch no state the copy loop reads back, and are
  elided; real time is not modelled.
-/

namespace Randd

/-- Modulus of Rust u64 arithmetic. -/
def U64 : Nat := 2 ^ 64

/-- ASCII lowercasing of one character.  Models the effect of Rust
str::to_lowercase on the ASCII size strings parse_size receives
(main.rs:95); full Unicode case mapping is out of scope. -/
def asciiToLower (c : Char) : Char :=
  if 'A' ≤ c ∧ c ≤ 'Z' then Char.ofNat (c.toNat + 32) else c

/-- Models Rust str::trim on a character list: strip whitespace from both
ends (main.rs:95). -/
def trimChars (l : List Char) : List Char :=
  ((l.dropWhile Char.isWhitespace).reverse.dropWhile Char.isWhitespace).reverse

/-- Numeric value of an ASCII digit. -/
def digitVal (c : Char) : Nat := c.toNat - '0'.toNat

/-- Value of a decimal digit string, most significant digit first. -/
def digitsToNat (l : List Char) : Nat :=
  l.foldl (fun a c => a * 10 + digitVal c) 0

/-- Models u64::from_str as used in parse_size (main.rs:98): fails on the
empty string, on non-digits, and on values that do not fit in 64 bits.
parse_size only ever passes it a (possibly empty) run of ASCII digits. -/
def parseU64 (l : List Char) : Option Nat :=
  if l.isEmpty then Option.none
  else if l.all Char.isDigit then
    if digitsToNat l < U64 then some (digitsToNat l) else Option.none
  else Option.none

/-- Error outcomes of parse_size (main.rs:94-111). -/
inductive SizeError
  /-- The numeric part failed to parse: source message "Invalid size: ...". -/
  | invalidNumber
  /-- Source message "Unknown size suffix: ...". -/
  | unknownSuffix
deriving DecidableEq

/-- The suffix table of parse_size (main.rs:100-110) applied to an already
parsed base value.  Each multiplication is a u64 multiplication, hence the
explicit `% U64` (Rust release-mode wrapping). -/
def suffixDispatch (base : Nat) (suffix : List Char) : Except SizeError Nat :=
  match suffix with
  | [] => .ok base
  | [c] =>
    if c = 'b' then .ok (base * 512 % U64)
    else if c = 'k' then .ok (base * 1024 % U64)
    else if c = 'm' then .ok (base * 1024 * 1024 % U64)
    else if c = 'g' then .ok (base * 1024 * 1024 * 1024 % U64)
    else if c = 't' then .ok (base * 1024 * 1024 * 1024 * 1024 % U64)
    else if c = 'p' then .ok (base * 1024 * 1024 * 1024 * 1024 * 1024 % U64)
    else if c = 'w' then .ok (base * 4 % U64)
    else .error .unknownSuffix
  | _ => .error .unknownSuffix

/-- RandomDd::parse_size (main.rs:94-111): trim and lowercase the string,
split it at the first non-digit into a numeric part and a suffix, parse the
numeric part as u64 and scale it by the suffix table. -/
def parse_size (s : List Char) : Except SizeError Nat :=
  let t := (trimChars s).map asciiToLower
  match parseU64 (t.takeWhile Char.isDigit) with
  | Option.none => .error .invalidNumber
  | some base => suffixDispatch base (t.dropWhile Char.isDigit)

/-- Error outcomes of parse_bs_range (main.rs:113-129). -/
inductive BsError
  /-- A parse_size failure on either half. -/
  | size (e : SizeError)
  /-- Source message "Invalid block size range: min (...) > max (...)". -/
  | rangeMinGtMax
deriving DecidableEq

/-- str::split_once('-') (main.rs:114): split at the first dash, if any. -/
def splitOnceDash : List Char → Option (List Char × List Char)
  | [] => Option.none
  | c :: rest =>
    if c = '-' then some ([], rest)
    else
      match splitOnceDash rest with
      | some (a, b) => some (c :: a, b)
      | Option.none => Option.none

/-- RandomDd::parse_bs_range (main.rs:113-129): a "min-max" string parses
both halves and requires min ≤ max; a plain size yields an equal pair. -/
def parse_bs_range (s : List Char) : Except BsError (Nat × Nat) :=
  match splitOnceDash s with
  | some (minS, maxS) =>
    match parse_size minS with
    | .error e => .error (.size e)
    | .ok min_size =>
      match parse_size maxS with
      | .error e => .error (.size e)
      | .ok max_size =>
        if min_size > max_size then .error .rangeMinGtMax
        else .ok (min_size, max_size)
  | Option.none =>
    match parse_size s with
    | .error e => .error (.size e)
    | .ok size => .ok (size, size)

/-- StatusLevel (main.rs:12-18). -/
inductive StatusLevel
  | levelNone
  | noxfer
  | progress
  | bitArray
deriving DecidableEq

/-- RandomDd::flip_bit (main.rs:148-155) on the bitmap's byte vector:
XOR bit (index % 8) of byte (index / 8) when that byte exists, otherwise do
nothing.  Bytes are u8 values; XOR of two values below 256 stays below
256, so plain Nat XOR is exact. -/
def flip_bit (ba : List Nat) (index : Nat) : List Nat :=
  let byte_idx := index / 8
  let bit_idx := index % 8
  if byte_idx < ba.length then
    ba.set byte_idx (ba.getD byte_idx 0 ^^^ (1 <<< bit_idx))
  else ba

/-- Observer: the value of bit i of the bitmap (bit (i % 8) of byte
(i / 8)), false when the byte is out of range. -/
def getBit (ba : List Nat) (i : Nat) : Bool :=
  (ba.getD (i / 8) 0).testBit (i % 8)

/-- Models rand's rng.gen_range(lo..=hi) (main.rs:306, 351): route one raw
draw r of the generator into the inclusive interval [lo, hi].  The source
requires lo ≤ hi at both call sites. -/
def genRange (lo hi r : Nat) : Nat := lo + r % (hi - lo + 1)

/-- Per-iteration chunk-size selection (main.rs:303-307): the fixed value
when min = max, otherwise a draw from [min, max]. -/
def chooseChunkSize (bs_min bs_max r : Nat) : Nat :=
  if bs_min = bs_max then bs_min else genRange bs_min bs_max r

/-- Outcome of the read step of one iteration (main.rs:311-331): what
input.read_exact returned and, after an UnexpectedEof, what the second
short input.read returned. -/
inductive ReadOutcome
  /-- read_exact filled the whole buffer. -/
  | full
  /-- read_exact hit UnexpectedEof; the second read returned this many
  bytes (at most the buffer size). -/
  | eofThen (bytes_read : Nat)
  /-- read_exact hit UnexpectedEof; the second read itself failed
  (source message "Failed to read from input: ..."). -/
  | eofThenFail
  /-- read_exact failed with a true I/O error (not UnexpectedEof). -/
  | err
deriving DecidableEq

/-- The I/O environment of one loop iteration: the raw random draws and
the success of each fallible operation the iteration may perform. -/
structure IterEnv where
  /-- Raw draw behind the chunk-size gen_range (main.rs:306). -/
  rngChunk : Nat
  /-- What the read step returned. -/
  readRes : ReadOutcome
  /-- Raw draw behind the offset gen_range (main.rs:351). -/
  rngPos : Nat
  /-- input.stream_position() succeeds (main.rs:339-341). -/
  posOk : Bool
  /-- input.seek past the unreadable region succeeds (main.rs:342-344). -/
  seekPastOk : Bool
  /-- output.seek succeeds (main.rs:353-355). -/
  seekOk : Bool
  /-- output.write_all succeeds (main.rs:357). -/
  writeOk : Bool
  /-- output.flush succeeds (main.rs:370). -/
  flushOk : Bool
deriving DecidableEq

/-- Mutable state of the copy loop.  blocksProcessed and bytesCopied are
the source's u64 counters (main.rs:291, 58); bitarray is the coverage
bitmap's byte vector.  reads and writes are ghost instrumentation: reads
counts the input read calls issued, writes logs each attempted
destination write as an (offset, length) pair, in order. -/
structure LoopState where
  blocksProcessed : Nat
  bytesCopied : Nat
  reads : Nat
  writes : List (Nat × Nat)
  bitarray : List Nat
deriving DecidableEq

/-- Loop state at the top of the first iteration (main.rs:291, counters
zero, no I/O yet), with the given initial bitmap byte vector. -/
def initLoopState (ba : List Nat) : LoopState :=
  { blocksProcessed := 0, bytesCopied := 0, reads := 0, writes := [], bitarray := ba }

/-- Reasons the run aborts from inside the loop, one per distinct fatal
format string of the source. -/
inductive FatalReason
  /-- "Input error: ..." (main.rs:348): read_exact error, conv=noerror unset. -/
  | inputReadError
  /-- "Failed to read from input: ..." (main.rs:316-318): the second,
  short read after UnexpectedEof failed. -/
  | secondReadFailed
  /-- "Failed to get input position: ..." (main.rs:339-341). -/
  | inputPosFailed
  /-- "Failed to seek past error: ..." (main.rs:342-344). -/
  | inputSeekFailed
  /-- "Failed to seek output to ...: ..." (main.rs:353-355). -/
  | outputSeekFailed
  /-- "Output error: ..." (main.rs:361): write failed, conv=noerror unset. -/
  | writeFailed
  /-- "Flush error: ..." (main.rs:374): flush failed, conv=noerror unset. -/
  | flushFailed
deriving DecidableEq

/-- Result of one loop iteration: go round again, break out of the loop
(normal end of input), or abort the run.  Every constructor carries the
loop state as of that moment. -/
inductive IterResult
  | next (st : LoopState)
  | stop (st : LoopState)
  | fatal (r : FatalReason) (st : LoopState)
deriving DecidableEq

/-- The loop state carried by an iteration result. -/
def IterResult.state : IterResult → LoopState
  | .next st => st
  | .stop st => st
  | .fatal _ st => st

/-- The engine's configuration as the loop sees it (fields of RandomDd
plus the values run computes before the loop: output_size, max_blocks). -/
structure EngineCfg where
  bs_min : Nat
  bs_max : Nat
  noerror : Bool
  sync : Bool
  status_level : StatusLevel
  output_size : Nat
  max_blocks : Option Nat
deriving DecidableEq

/-- The write half of one iteration (main.rs:351-379), entered with the
number of bytes to write (actual_read): choose a destination offset in
[0, output_size.saturating_sub(actual_read)] (Nat subtraction is
saturating), seek (fatal on failure regardless of conv=noerror), attempt
the write (recoverable under noerror), flip the coverage bit in BitArray
mode, flush (recoverable under noerror), then bump both counters.  The
ghost write log records the attempted write. -/
def writePhase (cfg : EngineCfg) (env : IterEnv) (st : LoopState) (actual_read : Nat) :
    IterResult :=
  let output_pos := genRange 0 (cfg.output_size - actual_read) env.rngPos
  if env.seekOk = false then .fatal .outputSeekFailed st
  else
    let st1 := { st with writes := st.writes ++ [(output_pos, actual_read)] }
    if env.writeOk = false ∧ cfg.noerror = false then .fatal .writeFailed st1
    else
      let st2 :=
        if cfg.status_level = StatusLevel.bitArray then
          { st1 with bitarray := flip_bit st1.bitarray (output_pos / cfg.bs_min) }
        else st1
      if env.flushOk = false ∧ cfg.noerror = false then .fatal .flushFailed st2
      else
        .next { st2 with
          blocksProcessed := (st2.blocksProcessed + 1) % U64,
          bytesCopied := (st2.bytesCopied + actual_read) % U64 }

/-- One iteration of the copy loop below the termination check
(main.rs:303-397): select a chunk size, read, and dispatch on the read
outcome exactly as the source's match does.  Note that in the
UnexpectedEof branch the source zero-fills the buffer tail under
conv=sync (main.rs:324-328) but still yields bytes_read as actual_read
(main.rs:330), so the write length is bytes_read either way. -/
def iterate (cfg : EngineCfg) (env : IterEnv) (st0 : LoopState) : IterResult :=
  let chunk_size := chooseChunkSize cfg.bs_min cfg.bs_max env.rngChunk
  let st := { st0 with reads := st0.reads + 1 }
  match env.readRes with
  | .full => writePhase cfg env st chunk_size
  | .eofThen bytes_read =>
    let st' := { st with reads := st.reads + 1 }
    if bytes_read = 0 then .stop st'
    else writePhase cfg env st' bytes_read
  | .eofThenFail => .fatal .secondReadFailed { st with reads := st.reads + 1 }
  | .err =>
    if cfg.noerror = true then
      if cfg.sync = true then writePhase cfg env st chunk_size
      else if env.posOk = false then .fatal .inputPosFailed st
      else if env.seekPastOk = false then .fatal .inputSeekFailed st
      else .next st
    else .fatal .inputReadError st

/-- The termination check at the top of the loop (main.rs:297-301):
stop when a block cap is set and blocksProcessed has reached it. -/
def stopNow : Option Nat → Nat → Bool
  | some mx, blocks => decide (mx ≤ blocks)
  | Option.none, _ => false

/-- Result of running the loop: normal termination (break), a fatal
error, or exhaustion of the embedding's fuel. -/
inductive RunResult
  | done (st : LoopState)
  | fatal (r : FatalReason) (st : LoopState)
  | outOfFuel (st : LoopState)
deriving DecidableEq

/-- The copy loop (main.rs:296-398): at the top of every round run the
termination check, then one iteration; i indexes the per-iteration I/O
environment.  fuel bounds the number of rounds the embedding unfolds and
is an artifact of totality, not of the source. -/
def runLoop (cfg : EngineCfg) (envs : Nat → IterEnv) : Nat → Nat → LoopState → RunResult
  | 0, _, st => .outOfFuel st
  | fuel + 1, i, st =>
    if stopNow cfg.max_blocks st.blocksProcessed then .done st
    else
      match iterate cfg (envs i) st with
      | .next st' => runLoop cfg envs fuel (i + 1) st'
      | .stop st' => .done st'
      | .fatal r st' => .fatal r st'

/-- The number of bytes the write step would be entered with for this
iteration, if it is reached: chunk size for a full read, the second
read's byte count after EOF (when nonzero), chunk size again for a read
error under noerror+sync; none when the iteration stops, skips, or
aborts before writing. -/
def actualReadOf (cfg : EngineCfg) (env : IterEnv) : Option Nat :=
  match env.readRes with
  | .full => some (chooseChunkSize cfg.bs_min cfg.bs_max env.rngChunk)
  | .eofThen bytes_read => if bytes_read = 0 then Option.none else some bytes_read
  | .eofThenFail => Option.none
  | .err =>
    if cfg.noerror = true ∧ cfg.sync = true then
      some (chooseChunkSize cfg.bs_min cfg.bs_max env.rngChunk)
    else Option.none

/-- Every write in the log stays inside a destination of the given size. -/
def writesInBounds (os : Nat) (l : List (Nat × Nat)) : Prop :=
  ∀ w ∈ l, w.2 ≤ os ∧ w.1 ≤ os - w.2 ∧ w.1 + w.2 ≤ os

/-- Command-line arguments as the engine consumes them (struct Args,
main.rs:20-49).  The input/output path strings only select which files
the environment opens and are elided; count is the value of the
NonZeroU64 `count` flag. -/
structure ArgsModel where
  bs : List Char
  count : Option Nat
  skip : Option Nat
  speed : Option (List Char)
  conv : List (List Char)
  status : Option (List Char)
deriving DecidableEq

/-- Configuration errors RandomDd::new reports (main.rs:68-92). -/
inductive NewError
  | bsRange (e : BsError)
  /-- "Invalid status value: ...". -/
  | invalidStatus
deriving DecidableEq

/-- RandomDd as constructed by new (main.rs:51-92), without the runtime
counters. -/
structure DdCfg where
  args : ArgsModel
  bs_min : Nat
  bs_max : Nat
  noerror : Bool
  sync : Bool
  status_level : StatusLevel
deriving DecidableEq

/-- RandomDd::new (main.rs:68-92): parse the block-size range, scan conv
for "noerror" and "sync", map the status string.  Performs no I/O. -/
def RandomDd_new (args : ArgsModel) : Except NewError DdCfg :=
  match parse_bs_range args.bs with
  | .error e => .error (.bsRange e)
  | .ok (bs_min, bs_max) =>
    let noerror := args.conv.any (fun c => c = "noerror".toList)
    let sync := args.conv.any (fun c => c = "sync".toList)
    match args.status with
    | Option.none => .ok ⟨args, bs_min, bs_max, noerror, sync, .noxfer⟩
    | some s =>
      if s = "none".toList then .ok ⟨args, bs_min, bs_max, noerror, sync, .levelNone⟩
      else if s = "progress".toList then .ok ⟨args, bs_min, bs_max, noerror, sync, .progress⟩
      else if s = "bitarray".toList then .ok ⟨args, bs_min, bs_max, noerror, sync, .bitArray⟩
      else if s = "noxfer".toList then .ok ⟨args, bs_min, bs_max, noerror, sync, .noxfer⟩
      else .error .invalidStatus

/-- The I/O world the pre-loop phase of run interacts with. -/
structure SetupEnv where
  /-- File::open of the input succeeds (main.rs:236-237). -/
  openInputOk : Bool
  /-- File::options().write(true).open of the output succeeds (main.rs:239-242). -/
  openOutputOk : Bool
  /-- The skip seek of the input succeeds (main.rs:244-249). -/
  skipSeekOk : Bool
  /-- output.metadata() succeeds (main.rs:251-254). -/
  metadataOk : Bool
  /-- The destination length the metadata reports. -/
  outputSize : Nat
deriving DecidableEq

/-- The I/O actions the pre-loop phase of run performs, in order. -/
inductive IOEvent
  | openInput
  | openOutput
  | seekInput
  | queryMetadata
deriving DecidableEq

/-- Errors that abort run before the copy loop starts (main.rs:232-277). -/
inductive RunError
  /-- "Failed to open input ..." (main.rs:236-237). -/
  | openInputFailed
  /-- "Failed to open output ... (file must exist)" (main.rs:239-242). -/
  | openOutputFailed
  /-- "Failed to seek input: ..." (main.rs:246-248). -/
  | skipSeekFailed
  /-- "Failed to get output file metadata: ..." (main.rs:251-253). -/
  | metadataFailed
  /-- "Output file ... has zero size, cannot write to random positions" (main.rs:256-260). -/
  | zeroSizeOutput
  /-- "Block size (...) is larger than output file size (...)" (main.rs:262-268). -/
  | bsLargerThanOutput
  /-- "Failed to parse speed: ..." (main.rs:271-277). -/
  | speedParseFailed (e : SizeError)
deriving DecidableEq

/-- An error of the whole program: a construction (new) error or a
pre-loop run error. -/
inductive ProgError
  | cfg (e : NewError)
  | run (e : RunError)
deriving DecidableEq

/-- How the copy loop itself ended, when it was reached at all.  The
source surfaces fatalErr as an Err string just like pre-loop errors;
keeping it on this side of the Except records that the loop ran. -/
inductive LoopOutcome
  | finished (st : LoopState)
  | fatalErr (r : FatalReason) (st : LoopState)
  | noFuel (st : LoopState)
deriving DecidableEq

/-- u64::div_ceil for positive divisors. -/
def divCeil (a b : Nat) : Nat := (a + b - 1) / b

/-- The pre-loop phase of run (main.rs:232-288), as a trace of the I/O
events performed plus either the error that aborted the run or the
destination size it proceeds with.  Order is the source's: open input,
open output, optional skip seek, metadata query, zero-size check,
block-size-fit check, speed parse. -/
def setupPhase (dd : DdCfg) (env : SetupEnv) : List IOEvent × Except RunError Nat :=
  let ev1 := [IOEvent.openInput]
  if env.openInputOk = false then (ev1, .error .openInputFailed)
  else
    let ev2 := ev1 ++ [IOEvent.openOutput]
    if env.openOutputOk = false then (ev2, .error .openOutputFailed)
    else
      let ev3 := if dd.args.skip.isSome then ev2 ++ [IOEvent.seekInput] else ev2
      if dd.args.skip.isSome ∧ env.skipSeekOk = false then (ev3, .error .skipSeekFailed)
      else
        let ev4 := ev3 ++ [IOEvent.queryMetadata]
        if env.metadataOk = false then (ev4, .error .metadataFailed)
        else if env.outputSize = 0 then (ev4, .error .zeroSizeOutput)
        else if env.outputSize < dd.bs_min then (ev4, .error .bsLargerThanOutput)
        else
          match dd.args.speed with
          | Option.none => (ev4, .ok env.outputSize)
          | some s =>
            match parse_size s with
            | .error e => (ev4, .error (.speedParseFailed e))
            | .ok _ => (ev4, .ok env.outputSize)

/-- The loop part of run once setup has succeeded (main.rs:279-398):
allocate the bitmap byte vector in BitArray mode (bit count
output_size.div_ceil(bs_min), byte count a further div_ceil 8,
main.rs:279-286), then run the copy loop. -/
def loopPhase (dd : DdCfg) (output_size : Nat) (envs : Nat → IterEnv) (fuel : Nat) :
    LoopOutcome :=
  let ba :=
    if dd.status_level = StatusLevel.bitArray then
      List.replicate (divCeil (divCeil output_size dd.bs_min) 8) 0
    else []
  let ecfg : EngineCfg :=
    ⟨dd.bs_min, dd.bs_max, dd.noerror, dd.sync, dd.status_level, output_size, dd.args.count⟩
  match runLoop ecfg envs fuel 0 (initLoopState ba) with
  | .done st => .finished st
  | .fatal r st => .fatalErr r st
  | .outOfFuel st => .noFuel st

/-- The whole program on resolved arguments: RandomDd::new, then run
(main.rs:445-459 wiring new and run).  Returns the pre-loop I/O trace
and either the aborting error or the loop outcome. -/
def mainRun (args : ArgsModel) (env : SetupEnv) (envs : Nat → IterEnv) (fuel : Nat) :
    List IOEvent × Except ProgError LoopOutcome :=
  match RandomDd_new args with
  | .error e => ([], .error (.cfg e))
  | .ok dd =>
    match setupPhase dd env with
    | (evs, .error re) => (evs, .error (.run re))
    | (evs, .ok output_size) => (evs, .ok (loopPhase dd output_size envs fuel))

/-- Concrete configuration for the C1 counterexample: destination of 4
bytes, block-size range 2-8 (so bs_min fits the destination but bs_max
does not). -/
def c1cfg : EngineCfg :=
  { bs_min := 2, bs_max := 8, noerror := false, sync := false,
    status_level := .levelNone, output_size := 4, max_blocks := Option.none }

/-- Iteration environment for the C1 counterexample: the rng draw makes
the chunk size 8, the read is full, all destination operations succeed. -/
def c1env : IterEnv :=
  { rngChunk := 6, readRes := .full, rngPos := 0, posOk := true,
    seekPastOk := true, seekOk := true, writeOk := true, flushOk := true }

/-- Concrete configuration for the C1 witness. -/
def cfgW1 : EngineCfg :=
  { bs_min := 2, bs_max := 4, noerror := false, sync := false,
    status_level := .levelNone, output_size := 10, max_blocks := Option.none }

/-- Iteration environment for the C1 witness. -/
def envW1 : IterEnv :=
  { rngChunk := 1, readRes := .full, rngPos := 3, posOk := true,
    seekPastOk := true, seekOk := true, writeOk := true, flushOk := true }

/-- Concrete configuration for C2: fixed block size 4, conv=sync set. -/
def c2cfg : EngineCfg :=
  { bs_min := 4, bs_max := 4, noerror := false, sync := true,
    status_level := .levelNone, output_size := 10, max_blocks := Option.none }

/-- Iteration environment for C2: read_exact hits end of stream and the
second read returns 2 of the 4 requested bytes; all writes succeed. -/
def c2env : IterEnv :=
  { rngChunk := 0, readRes := .eofThen 2, rngPos := 0, posOk := true,
    seekPastOk := true, seekOk := true, writeOk := true, flushOk := true }

/-- Concrete configuration for the C3 counterexample: conv=noerror set,
BitArray status, fixed block size 2, destination of 16 bytes. -/
def c3cfg : EngineCfg :=
  { bs_min := 2, bs_max := 2, noerror := true, sync := false,
    status_level := .bitArray, output_size := 16, max_blocks := Option.none }

/-- Iteration environment for the C3 counterexample: the destination
write fails, everything else succeeds. -/
def c3env : IterEnv :=
  { rngChunk := 0, readRes := .full, rngPos := 0, posOk := true,
    seekPastOk := true, seekOk := true, writeOk := false, flushOk := true }

/-- Concrete configuration for the C3 witness. -/
def cfgW3 : EngineCfg :=
  { bs_min := 3, bs_max := 3, noerror := true, sync := false,
    status_level := .levelNone, output_size := 9, max_blocks := Option.none }

/-- Iteration environment for the C3 witness. -/
def envW3 : IterEnv :=
  { rngChunk := 0, readRes := .full, rngPos := 0, posOk := true,
    seekPastOk := true, seekOk := true, writeOk := true, flushOk := true }

/-- Concrete configuration for the C4 counterexample: conv=noerror set. -/
def c4cfg : EngineCfg :=
  { bs_min := 4, bs_max := 4, noerror := true, sync := false,
    status_level := .levelNone, output_size := 10, max_blocks := Option.none }

/-- Iteration environment for the C4 counterexample: read_exact hits an
apparent end of stream and the second, short read fails. -/
def c4env : IterEnv :=
  { rngChunk := 0, readRes := .eofThenFail, rngPos := 0, posOk := true,
    seekPastOk := true, seekOk := true, writeOk := true, flushOk := true }

/-- Concrete configuration for the C4 witness. -/
def cfgW4 : EngineCfg :=
  { bs_min := 4, bs_max := 4, noerror := true, sync := false,
    status_level := .levelNone, output_size := 10, max_blocks := Option.none }

/-- Iteration environment for the C4 witness: a true read error, with the
skip-forward seek succeeding. -/
def envW4 : IterEnv :=
  { rngChunk := 0, readRes := .err, rngPos := 0, posOk := true,
    seekPastOk := true, seekOk := true, writeOk := true, flushOk := true }

/-- Concrete configuration for the C7 witness: count = 2. -/
def cfgW7 : EngineCfg :=
  { bs_min := 4, bs_max := 4, noerror := false, sync := false,
    status_level := .levelNone, output_size := 100, max_blocks := some 2 }

/-- Iteration environment for the C7 witness: full reads, all destination
operations succeed. -/
def envW7 : IterEnv :=
  { rngChunk := 0, readRes := .full, rngPos := 0, posOk := true,
    seekPastOk := true, seekOk := true, writeOk := true, flushOk := true }

/-- Arguments for the C9 counterexample: valid block size, default
status, but a speed string with an unknown suffix. -/
def argsC9 : ArgsModel :=
  { bs := "4".toList, count := Option.none, skip := Option.none,
    speed := some ("5x".toList), conv := [], status := Option.none }

/-- Setup environment for the C9 counterexample: both files open fine and
the destination reports 100 bytes. -/
def envC9 : SetupEnv :=
  { openInputOk := true, openOutputOk := true, skipSeekOk := true,
    metadataOk := true, outputSize := 100 }

/-- Dummy iteration environment for the C9 theorems (the loop is never
reached in the cases of interest). -/
def iterC9 : IterEnv :=
  { rngChunk := 0, readRes := .full, rngPos := 0, posOk := true,
    seekPastOk := true, seekOk := true, writeOk := true, flushOk := true }

/-- Arguments for the C9 witness: an inverted block-size range. -/
def argsW9 : ArgsModel :=
  { bs := "20-10".toList, count := Option.none, skip := Option.none,
    speed := Option.none, conv := [], status := Option.none }

/-- Setup environment for the C9 witness. -/
def envW9 : SetupEnv :=
  { openInputOk := true, openOutputOk := true, skipSeekOk := true,
    metadataOk := true, outputSize := 100 }

/-!  Helper lemmas about lists and characters. -/

theorem rdd_getD_set_self (l : List Nat) : ∀ (k a : Nat), k < l.length →
    (l.set k a).getD k 0 = a := by
  induction l with
  | nil => intro k a h; simp at h
  | cons x t ih =>
    intro k a h
    cases k with
    | zero => rfl
    | succ k => exact ih k a (by simpa using h)

theorem rdd_getD_set_ne (l : List Nat) : ∀ (k k' a : Nat), k ≠ k' →
    (l.set k a).getD k' 0 = l.getD k' 0 := by
  induction l with
  | nil => intro k k' a _; simp
  | cons x t ih =>
    intro k k' a hne
    cases k with
    | zero =>
      cases k' with
      | zero => exact absurd rfl hne
      | succ k' => rfl
    | succ k =>
      cases k' with
      | zero => rfl
      | succ k' => exact ih k k' a (fun h => hne (by omega))

theorem rdd_set_getD_self (l : List Nat) : ∀ (k : Nat), k < l.length →
    l.set k (l.getD k 0) = l := by
  induction l with
  | nil => intro k h; simp at h
  | cons x t ih =>
    intro k h
    cases k with
    | zero => rfl
    | succ k => simpa using ih k (by simpa using h)

theorem rdd_dropWhile_of_all_neg (p : Char → Bool) (l : List Char)
    (h : ∀ c ∈ l, p c = false) : l.dropWhile p = l := by
  cases l with
  | nil => rfl
  | cons a t => simp [List.dropWhile, h a (by simp)]

theorem rdd_trimChars_eq_self (l : List Char)
    (h : ∀ c ∈ l, c.isWhitespace = false) : trimChars l = l := by
  unfold trimChars
  rw [rdd_dropWhile_of_all_neg _ _ h,
    rdd_dropWhile_of_all_neg _ _ (fun c hc => h c (List.mem_reverse.mp hc)),
    List.reverse_reverse]

theorem rdd_map_id_of_fixed (f : Char → Char) (l : List Char)
    (h : ∀ c ∈ l, f c = c) : l.map f = l := by
  induction l with
  | nil => rfl
  | cons a t ih => simp [h a (by simp), ih (fun c hc => h c (by simp [hc]))]

theorem rdd_takeWhile_append (p : Char → Bool) (n rest : List Char)
    (h : ∀ c ∈ n, p c = true) :
    (n ++ rest).takeWhile p = n ++ rest.takeWhile p := by
  induction n with
  | nil => rfl
  | cons a t ih =>
    simp [List.takeWhile, h a (by simp), ih (fun c hc => h c (by simp [hc]))]

theorem rdd_dropWhile_append (p : Char → Bool) (n rest : List Char)
    (h : ∀ c ∈ n, p c = true) :
    (n ++ rest).dropWhile p = rest.dropWhile p := by
  induction n with
  | nil => rfl
  | cons a t ih =>
    simp [List.dropWhile, h a (by simp), ih (fun c hc => h c (by simp [hc]))]

theorem rdd_digit_char_facts (c : Char) (h : c.isDigit = true) :
    c.isWhitespace = false ∧ asciiToLower c = c ∧ c ≠ '-' := by
  have hb : ('0' ≤ c ∧ c ≤ '9') := by simpa [Char.isDigit] using h
  refine ⟨?_, ?_, ?_⟩
  · cases hw : c.isWhitespace with
    | false => rfl
    | true =>
      exfalso
      have := by simpa [Char.isWhitespace] using hw
      rcases this with ((h1 | h1) | h1) | h1 <;> subst h1 <;>
        exact absurd hb.1 (by decide)
  · unfold asciiToLower
    rw [if_neg]
    intro hAZ
    exact absurd (le_trans hAZ.1 hb.2) (by decide)
  · intro hd
    subst hd
    exact absurd hb.1 (by decide)

/-!  C6: chunk-size selection stays in the configured range, and an equal
range means the fixed value with no dependence on the random draw. -/

theorem chooseChunkSize_bounds (mn mx r : Nat) (h : mn ≤ mx) :
    mn ≤ chooseChunkSize mn mx r ∧ chooseChunkSize mn mx r ≤ mx := by
  unfold chooseChunkSize
  by_cases he : mn = mx
  · simp [he]
  · rw [if_neg he]
    unfold genRange
    have hlt : r % (mx - mn + 1) < mx - mn + 1 := Nat.mod_lt _ (by omega)
    omega

/-- C6: for every valid configuration with blockSizeMin ≤ blockSizeMax,
the chunk size chosen in an iteration (main.rs:303-307) lies in the
inclusive interval [blockSizeMin, blockSizeMax]; and when the bounds are
equal the chosen size is exactly that fixed value for every possible
random draw (no draw influences it). -/
theorem c6_theorem (mn mx r : Nat) (h : mn ≤ mx) :
    (mn ≤ chooseChunkSize mn mx r ∧ chooseChunkSize mn mx r ≤ mx) ∧
    (mn = mx → ∀ r', chooseChunkSize mn mx r' = mn) := by
  refine ⟨chooseChunkSize_bounds mn mx r h, ?_⟩
  intro he r'
  simp [chooseChunkSize, he]

/-- Witness for c6_theorem at the concrete range [2, 5] and draw 9. -/
theorem c6_witness :
    (2 ≤ 5) ∧
      ((2 ≤ chooseChunkSize 2 5 9 ∧ chooseChunkSize 2 5 9 ≤ 5) ∧
        (2 = 5 → ∀ r', chooseChunkSize 2 5 r' = 2)) :=
  ⟨by decide, c6_theorem 2 5 9 (by decide)⟩

/-!  C8: flip_bit is an involutive toggle of exactly one bit. -/

/-- C8: flipping the same index twice restores the bitmap exactly; a
single flip of an in-range index toggles bit i; and any other bit j ≠ i
of the bitmap is left unchanged by a flip of i. -/
theorem c8_theorem (ba : List Nat) (i j : Nat) :
    flip_bit (flip_bit ba i) i = ba ∧
    (i / 8 < ba.length → getBit (flip_bit ba i) i = !(getBit ba i)) ∧
    (j ≠ i → getBit (flip_bit ba i) j = getBit ba j) := by
  refine ⟨?_, ?_, ?_⟩
  · unfold flip_bit
    by_cases h : i / 8 < ba.length
    · rw [if_pos h]
      rw [if_pos (by simpa using h)]
      rw [rdd_getD_set_self ba (i / 8) _ h]
      rw [List.set_set]
      rw [Nat.xor_assoc, Nat.xor_self, Nat.xor_zero]
      exact rdd_set_getD_self ba (i / 8) h
    · rw [if_neg h, if_neg h]
  · intro h
    unfold flip_bit getBit
    rw [if_pos h]
    rw [rdd_getD_set_self ba (i / 8) _ h]
    rw [Nat.one_shiftLeft, Nat.testBit_xor, Nat.testBit_two_pow_self]
    cases (ba.getD (i / 8) 0).testBit (i % 8) <;> rfl
  · intro hne
    unfold flip_bit getBit
    by_cases h : i / 8 < ba.length
    · rw [if_pos h]
      by_cases hbyte : i / 8 = j / 8
      · rw [← hbyte, rdd_getD_set_self ba (i / 8) _ h]
        have hbit : i % 8 ≠ j % 8 := by
          intro hmod
          apply hne
          have hi := Nat.div_add_mod i 8
          have hj := Nat.div_add_mod j 8
          omega
        rw [Nat.one_shiftLeft, Nat.testBit_xor, Nat.testBit_two_pow_of_ne hbit,
          Bool.xor_false]
      · rw [rdd_getD_set_ne ba (i / 8) (j / 8) _ hbyte]
    · rw [if_neg h]

/-- Witness for c8_theorem on the bitmap [0, 255] at indices 3 and 9. -/
theorem c8_witness :
    flip_bit (flip_bit [0, 255] 3) 3 = [0, 255] ∧
      getBit (flip_bit [0, 255] 3) 3 = !(getBit [0, 255] 3) ∧
      getBit (flip_bit [0, 255] 3) 9 = getBit [0, 255] 9 :=
  ⟨(c8_theorem [0, 255] 3 9).1, (c8_theorem [0, 255] 3 9).2.1 (by decide),
    (c8_theorem [0, 255] 3 9).2.2 (by decide)⟩

/-!  C10: flip_bit is total and bounds-safe. -/

/-- C10: flip_bit never touches memory outside the byte vector: for an
index whose byte position is at or beyond the vector length it returns
the bitmap unchanged (in particular it is a no-op on the empty bitmap
used when the status level is not BitArray), and it always preserves the
vector's length. -/
theorem c10_theorem (ba : List Nat) (i : Nat) :
    (ba.length ≤ i / 8 → flip_bit ba i = ba) ∧
    (flip_bit ba i).length = ba.length ∧
    flip_bit [] i = [] := by
  refine ⟨?_, ?_, ?_⟩
  · intro h
    unfold flip_bit
    rw [if_neg (by omega)]
  · unfold flip_bit
    by_cases h : i / 8 < ba.length
    · rw [if_pos h]; exact List.length_set ba _ _
    · rw [if_neg h]
  · unfold flip_bit
    simp

/-- Witness for c10_theorem on the empty bitmap at index 5. -/
theorem c10_witness :
    flip_bit [] 5 = [] ∧ (flip_bit [] 5).length = ([] : List Nat).length ∧
      flip_bit [] 5 = [] :=
  ⟨(c10_theorem [] 5).1 (by decide), (c10_theorem [] 5).2.1, (c10_theorem [] 5).2.2⟩

/-!  C5: size-string and range parsing. -/

theorem rdd_parseU64_digits (n : List Char) (hne : n ≠ [])
    (hd : ∀ ch ∈ n, ch.isDigit = true) (hlt : digitsToNat n < U64) :
    parseU64 n = some (digitsToNat n) := by
  have hemp : n.isEmpty = false := by
    cases n with
    | nil => exact absurd rfl hne
    | cons a t => rfl
  unfold parseU64
  rw [hemp]
  simp only [Bool.false_eq_true, if_false]
  rw [List.all_eq_true.mpr hd]
  simp only [if_true]
  rw [if_pos hlt]

theorem rdd_parse_size_digits_suffix (n suf : List Char) (hne : n ≠ [])
    (hd : ∀ ch ∈ n, ch.isDigit = true) (hlt : digitsToNat n < U64)
    (hsw : ∀ ch ∈ suf, ch.isWhitespace = false)
    (hsl : suf.map asciiToLower = suf)
    (hsd : ∀ ch ∈ suf, ch.isDigit = false) :
    parse_size (n ++ suf) = suffixDispatch (digitsToNat n) suf := by
  simp only [parse_size]
  have hnws : ∀ ch ∈ n ++ suf, ch.isWhitespace = false := by
    intro ch hc
    rcases List.mem_append.mp hc with h | h
    · exact (rdd_digit_char_facts ch (hd ch h)).1
    · exact hsw ch h
  rw [rdd_trimChars_eq_self _ hnws, List.map_append,
    rdd_map_id_of_fixed _ n (fun ch hc => (rdd_digit_char_facts ch (hd ch hc)).2.1), hsl,
    rdd_takeWhile_append _ n suf hd, rdd_dropWhile_append _ n suf hd]
  have hsuf_take : suf.takeWhile Char.isDigit = [] := by
    cases suf with
    | nil => rfl
    | cons a t => simp [List.takeWhile, hsd a (by simp)]
  have hsuf_drop : suf.dropWhile Char.isDigit = suf := by
    cases suf with
    | nil => rfl
    | cons a t => simp [List.dropWhile, hsd a (by simp)]
  rw [hsuf_take, hsuf_drop, List.append_nil, rdd_parseU64_digits n hne hd hlt]

theorem rdd_parse_size_digits (n : List Char) (hne : n ≠ [])
    (hd : ∀ ch ∈ n, ch.isDigit = true) (hlt : digitsToNat n < U64) :
    parse_size n = .ok (digitsToNat n) := by
  have h := rdd_parse_size_digits_suffix n [] hne hd hlt (by simp) rfl (by simp)
  rw [List.append_nil] at h
  rw [h]
  rfl

theorem rdd_splitOnceDash_append (n m : List Char) (h : ∀ ch ∈ n, ch ≠ '-') :
    splitOnceDash (n ++ '-' :: m) = some (n, m) := by
  induction n with
  | nil => simp [splitOnceDash]
  | cons a t ih =>
    rw [List.cons_append]
    unfold splitOnceDash
    rw [if_neg (h a (by simp)), ih (fun ch hc => h ch (by simp [hc]))]

/-- C5 (amended): the suffix table b=512, k=1024, m=1024^2, g=1024^3,
t=1024^4, p=1024^5, w=4, no suffix = bytes, holds for every digit string
whose value and scaled product fit in u64 (the source computes in u64, so
a product of 2^64 or more wraps instead of yielding n times the factor —
see the counterexample); a "min-max" range with parsed min ≤ max yields
the pair, an inverted range is a configuration error, and an unknown
suffix character (one that survives trimming and lowercasing unchanged
and is none of the seven table letters) is a configuration error. -/
theorem c5_theorem (n m : List Char) (c : Char) (hn : n ≠ [])
    (hnd : ∀ ch ∈ n, ch.isDigit = true)
    (hm : m ≠ []) (hmd : ∀ ch ∈ m, ch.isDigit = true) :
    (digitsToNat n * 512 < U64 →
      parse_size (n ++ ['b']) = .ok (digitsToNat n * 512)) ∧
    (digitsToNat n * 1024 < U64 →
      parse_size (n ++ ['k']) = .ok (digitsToNat n * 1024)) ∧
    (digitsToNat n * 1024 * 1024 < U64 →
      parse_size (n ++ ['m']) = .ok (digitsToNat n * 1024 * 1024)) ∧
    (digitsToNat n * 1024 * 1024 * 1024 < U64 →
      parse_size (n ++ ['g']) = .ok (digitsToNat n * 1024 * 1024 * 1024)) ∧
    (digitsToNat n * 1024 * 1024 * 1024 * 1024 < U64 →
      parse_size (n ++ ['t']) = .ok (digitsToNat n * 1024 * 1024 * 1024 * 1024)) ∧
    (digitsToNat n * 1024 * 1024 * 1024 * 1024 * 1024 < U64 →
      parse_size (n ++ ['p']) =
        .ok (digitsToNat n * 1024 * 1024 * 1024 * 1024 * 1024)) ∧
    (digitsToNat n * 4 < U64 → parse_size (n ++ ['w']) = .ok (digitsToNat n * 4)) ∧
    (digitsToNat n < U64 → parse_size n = .ok (digitsToNat n)) ∧
    (c.isDigit = false → c.isWhitespace = false → asciiToLower c = c →
      c ∉ (['b', 'k', 'm', 'g', 't', 'p', 'w'] : List Char) → digitsToNat n < U64 →
      parse_size (n ++ [c]) = .error .unknownSuffix) ∧
    (digitsToNat n < U64 → digitsToNat m < U64 → digitsToNat n ≤ digitsToNat m →
      parse_bs_range (n ++ '-' :: m) = .ok (digitsToNat n, digitsToNat m)) ∧
    (digitsToNat n < U64 → digitsToNat m < U64 → digitsToNat m < digitsToNat n →
      parse_bs_range (n ++ '-' :: m) = .error .rangeMinGtMax) := by
  have hmono : ∀ a b : Nat, 1 ≤ b → a ≤ a * b := by
    intro a b hb
    calc a = a * 1 := (Nat.mul_one a).symm
    _ ≤ a * b := Nat.mul_le_mul_left a hb
  have hdashn : ∀ ch ∈ n, ch ≠ '-' :=
    fun ch hc => (rdd_digit_char_facts ch (hnd ch hc)).2.2
  have hrange : ∀ (h1 : digitsToNat n < U64) (h2 : digitsToNat m < U64),
      parse_bs_range (n ++ '-' :: m) =
        (if digitsToNat n > digitsToNat m then .error .rangeMinGtMax
          else .ok (digitsToNat n, digitsToNat m)) := by
    intro h1 h2
    simp only [parse_bs_range, rdd_splitOnceDash_append n m hdashn,
      rdd_parse_size_digits n hn hnd h1, rdd_parse_size_digits m hm hmd h2]
  refine ⟨?_, ?_, ?_, ?_, ?_, ?_, ?_, ?_, ?_, ?_, ?_⟩
  · intro hfit
    have hlt : digitsToNat n < U64 := lt_of_le_of_lt (hmono _ 512 (by omega)) hfit
    rw [rdd_parse_size_digits_suffix n ['b'] hn hnd hlt (by decide) (by decide) (by decide)]
    simp [suffixDispatch, Nat.mod_eq_of_lt hfit]
  · intro hfit
    have hlt : digitsToNat n < U64 := lt_of_le_of_lt (hmono _ 1024 (by omega)) hfit
    rw [rdd_parse_size_digits_suffix n ['k'] hn hnd hlt (by decide) (by decide) (by decide)]
    simp [suffixDispatch, Nat.mod_eq_of_lt hfit]
  · intro hfit
    have hlt : digitsToNat n < U64 :=
      lt_of_le_of_lt (le_trans (hmono _ 1024 (by omega)) (hmono _ 1024 (by omega))) hfit
    rw [rdd_parse_size_digits_suffix n ['m'] hn hnd hlt (by decide) (by decide) (by decide)]
    simp [suffixDispatch, Nat.mod_eq_of_lt hfit]
  · intro hfit
    have hlt : digitsToNat n < U64 :=
      lt_of_le_of_lt (le_trans (le_trans (hmono _ 1024 (by omega)) (hmono _ 1024 (by omega)))
        (hmono _ 1024 (by omega))) hfit
    rw [rdd_parse_size_digits_suffix n ['g'] hn hnd hlt (by decide) (by decide) (by decide)]
    simp [suffixDispatch, Nat.mod_eq_of_lt hfit]
  · intro hfit
    have hlt : digitsToNat n < U64 :=
      lt_of_le_of_lt (le_trans (le_trans (le_trans (hmono _ 1024 (by omega))
        (hmono _ 1024 (by omega))) (hmono _ 1024 (by omega))) (hmono _ 1024 (by omega))) hfit
    rw [rdd_parse_size_digits_suffix n ['t'] hn hnd hlt (by decide) (by decide) (by decide)]
    simp [suffixDispatch, Nat.mod_eq_of_lt hfit]
  · intro hfit
    have hlt : digitsToNat n < U64 :=
      lt_of_le_of_lt (le_trans (le_trans (le_trans (le_trans (hmono _ 1024 (by omega))
        (hmono _ 1024 (by omega))) (hmono _ 1024 (by omega))) (hmono _ 1024 (by omega)))
        (hmono _ 1024 (by omega))) hfit
    rw [rdd_parse_size_digits_suffix n ['p'] hn hnd hlt (by decide) (by decide) (by decide)]
    simp [suffixDispatch, Nat.mod_eq_of_lt hfit]
  · intro hfit
    have hlt : digitsToNat n < U64 := lt_of_le_of_lt (hmono _ 4 (by omega)) hfit
    rw [rdd_parse_size_digits_suffix n ['w'] hn hnd hlt (by decide) (by decide) (by decide)]
    simp [suffixDispatch, Nat.mod_eq_of_lt hfit]
  · intro hlt
    exact rdd_parse_size_digits n hn hnd hlt
  · intro hcd hcw hcl hcni hlt
    have hsw : ∀ ch ∈ [c], ch.isWhitespace = false := by
      intro ch hc
      rw [List.mem_singleton.mp hc]
      exact hcw
    have hsl : [c].map asciiToLower = [c] := by simp [hcl]
    have hsd : ∀ ch ∈ [c], ch.isDigit = false := by
      intro ch hc
      rw [List.mem_singleton.mp hc]
      exact hcd
    rw [rdd_parse_size_digits_suffix n [c] hn hnd hlt hsw hsl hsd]
    simp only [List.mem_cons, List.not_mem_nil, or_false] at hcni
    push_neg at hcni
    obtain ⟨h1, h2, h3, h4, h5, h6, h7⟩ := hcni
    simp [suffixDispatch, h1, h2, h3, h4, h5, h6, h7]
  · intro h1 h2 hle
    rw [hrange h1 h2, if_neg (by omega)]
  · intro h1 h2 hgt
    rw [hrange h1 h2, if_pos (by omega)]

/-- Counterexample to C5 as stated: parsing the 20-digit string for
2^64 - 1 with suffix b succeeds but returns the u64-wrapped product
2^64 - 512, not n·512, because the source multiplies in u64. -/
theorem c5_counterexample :
    parse_size ("18446744073709551615b".toList) = .ok 18446744073709551104 ∧
      (18446744073709551615 * 512 : Nat) ≠ 18446744073709551104 := by
  constructor
  · rfl
  · decide

/-- Witness for c5_theorem: the k suffix at the digit string 4 gives
4096. -/
theorem c5_witness :
    (digitsToNat ['4'] * 1024 < U64) ∧
      parse_size (['4'] ++ ['k']) = .ok (digitsToNat ['4'] * 1024) :=
  ⟨by decide,
    ( c5_theorem ['4'] ['1', '0'] 'x' (by decide) (by decide) (by decide)
      (by decide)).2.1 (by decide)⟩

/-!  Engine lemmas shared by the loop claims. -/

theorem genRange_zero_le (hi r : Nat) : genRange 0 hi r ≤ hi := by
  unfold genRange
  have := Nat.mod_lt r (show 0 < hi - 0 + 1 by omega)
  omega

theorem writePhase_seekFail (cfg : EngineCfg) (env : IterEnv) (st : LoopState) (n : Nat)
    (h : env.seekOk = false) :
    writePhase cfg env st n = .fatal .outputSeekFailed st := by
  simp [writePhase, h]

theorem writePhase_spec (cfg : EngineCfg) (env : IterEnv) (st : LoopState) (n : Nat)
    (hseek : env.seekOk = true) (hno : cfg.noerror = true) :
    writePhase cfg env st n = .next
      { blocksProcessed := (st.blocksProcessed + 1) % U64,
        bytesCopied := (st.bytesCopied + n) % U64,
        reads := st.reads,
        writes := st.writes ++ [(genRange 0 (cfg.output_size - n) env.rngPos, n)],
        bitarray :=
          if cfg.status_level = StatusLevel.bitArray then
            flip_bit st.bitarray (genRange 0 (cfg.output_size - n) env.rngPos / cfg.bs_min)
          else st.bitarray } := by
  by_cases hb : cfg.status_level = StatusLevel.bitArray <;>
    simp [writePhase, hseek, hno, hb]

theorem writePhase_ok (cfg : EngineCfg) (env : IterEnv) (st : LoopState) (n : Nat)
    (hseek : env.seekOk = true) (hwrite : env.writeOk = true) (hflush : env.flushOk = true) :
    writePhase cfg env st n = .next
      { blocksProcessed := (st.blocksProcessed + 1) % U64,
        bytesCopied := (st.bytesCopied + n) % U64,
        reads := st.reads,
        writes := st.writes ++ [(genRange 0 (cfg.output_size - n) env.rngPos, n)],
        bitarray :=
          if cfg.status_level = StatusLevel.bitArray then
            flip_bit st.bitarray (genRange 0 (cfg.output_size - n) env.rngPos / cfg.bs_min)
          else st.bitarray } := by
  by_cases hb : cfg.status_level = StatusLevel.bitArray <;>
    simp [writePhase, hseek, hwrite, hflush, hb]

theorem writePhase_writes (cfg : EngineCfg) (env : IterEnv) (st : LoopState) (n : Nat) :
    (writePhase cfg env st n).state.writes = st.writes ∨
    (writePhase cfg env st n).state.writes =
      st.writes ++ [(genRange 0 (cfg.output_size - n) env.rngPos, n)] := by
  simp only [writePhase]
  split_ifs <;> simp [IterResult.state]

theorem writePhase_fatal_reason (cfg : EngineCfg) (env : IterEnv) (st : LoopState) (n : Nat) :
    ∀ r stf, writePhase cfg env st n = .fatal r stf →
      r = .outputSeekFailed ∨ r = .writeFailed ∨ r = .flushFailed := by
  intro r stf h
  simp only [writePhase] at h
  split_ifs at h <;> cases h <;> simp

theorem iterate_reaches_write (cfg : EngineCfg) (env : IterEnv) (st : LoopState) (n : Nat)
    (hno : cfg.noerror = true) (har : actualReadOf cfg env = some n) :
    ∃ r, iterate cfg env st = writePhase cfg env { st with reads := r } n := by
  cases hr : env.readRes <;> simp only [actualReadOf, hr] at har
  case full =>
    simp only [Option.some.injEq] at har
    subst har
    exact ⟨st.reads + 1, by simp only [iterate, hr]⟩
  case eofThen b =>
    by_cases hb0 : b = 0
    · rw [if_pos hb0] at har
      exact absurd har (by simp)
    · rw [if_neg hb0] at har
      simp only [Option.some.injEq] at har
      subst har
      refine ⟨st.reads + 1 + 1, ?_⟩
      simp only [iterate, hr]
      rw [if_neg hb0]
  case eofThenFail => exact absurd har (by simp)
  case err =>
    by_cases hsy : cfg.sync = true
    · rw [if_pos ⟨hno, hsy⟩] at har
      simp only [Option.some.injEq] at har
      subst har
      refine ⟨st.reads + 1, ?_⟩
      simp only [iterate, hr]
      rw [if_pos hno, if_pos hsy]
    · rw [if_neg (fun hand => hsy hand.2)] at har
      exact absurd har (by simp)

theorem iterate_full_spec (cfg : EngineCfg) (env : IterEnv) (st : LoopState)
    (h1 : env.readRes = .full) (h2 : env.seekOk = true)
    (h3 : env.writeOk = true) (h4 : env.flushOk = true) :
    ∃ st', iterate cfg env st = .next st' ∧
      st'.blocksProcessed = (st.blocksProcessed + 1) % U64 ∧
      st'.reads = st.reads + 1 ∧
      st'.writes.length = st.writes.length + 1 := by
  simp only [iterate, h1]
  rw [writePhase_ok cfg env _ _ h2 h3 h4]
  exact ⟨_, rfl, rfl, rfl, by simp⟩

/-!  C1: in-bounds destination writes. -/

/-- C1 (amended): for every iteration reaching the write step with
actualRead bytes, the chosen offset o satisfies 0 ≤ o ≤
destinationSize − actualRead and o + actualRead ≤ destinationSize —
provided every block that reaches the write fits the destination, which
the startup precondition guarantees only when blockSizeMax ≤
destinationSize (the source checks bs_min alone, main.rs:262-268; see the
counterexample for bs_max > destinationSize).  Stated as preservation of
the bound over the ghost write log across one iteration; the second-read
hypothesis is the contract that a Rust read returns at most the buffer
size. -/
theorem c1_theorem (cfg : EngineCfg) (env : IterEnv) (st : LoopState)
    (hminmax : cfg.bs_min ≤ cfg.bs_max) (hfit : cfg.bs_max ≤ cfg.output_size)
    (hread2 : ∀ b, env.readRes = .eofThen b →
      b ≤ chooseChunkSize cfg.bs_min cfg.bs_max env.rngChunk)
    (hinv : writesInBounds cfg.output_size st.writes) :
    writesInBounds cfg.output_size (iterate cfg env st).state.writes := by
  have hchunk : chooseChunkSize cfg.bs_min cfg.bs_max env.rngChunk ≤ cfg.output_size :=
    le_trans (chooseChunkSize_bounds cfg.bs_min cfg.bs_max env.rngChunk hminmax).2 hfit
  have hwp : ∀ (st1 : LoopState), st1.writes = st.writes → ∀ nn, nn ≤ cfg.output_size →
      writesInBounds cfg.output_size (writePhase cfg env st1 nn).state.writes := by
    intro st1 he nn hnn
    rcases writePhase_writes cfg env st1 nn with h | h
    · rw [h, he]
      exact hinv
    · rw [h, he]
      intro w hw
      rcases List.mem_append.mp hw with hw | hw
      · exact hinv w hw
      · have hpos : genRange 0 (cfg.output_size - nn) env.rngPos ≤ cfg.output_size - nn :=
          genRange_zero_le (cfg.output_size - nn) env.rngPos
        rw [List.mem_singleton.mp hw]
        refine ⟨hnn, hpos, ?_⟩
        show genRange 0 (cfg.output_size - nn) env.rngPos + nn ≤ cfg.output_size
        omega
  cases hr : env.readRes
  case full =>
    simp only [iterate, hr]
    exact hwp { st with reads := st.reads + 1 } rfl _ hchunk
  case eofThen b =>
    simp only [iterate, hr]
    by_cases hb0 : b = 0
    · rw [if_pos hb0]
      simpa [IterResult.state] using hinv
    · rw [if_neg hb0]
      exact hwp { st with reads := st.reads + 1 + 1 } rfl _ (le_trans (hread2 b hr) hchunk)
  case eofThenFail =>
    simp only [iterate, hr]
    simpa [IterResult.state] using hinv
  case err =>
    simp only [iterate, hr]
    by_cases hno : cfg.noerror = true
    · rw [if_pos hno]
      by_cases hsy : cfg.sync = true
      · rw [if_pos hsy]
        exact hwp { st with reads := st.reads + 1 } rfl _ hchunk
      · rw [if_neg hsy]
        by_cases hp : env.posOk = false
        · rw [if_pos hp]
          simpa [IterResult.state] using hinv
        · rw [if_neg hp]
          by_cases hsp : env.seekPastOk = false
          · rw [if_pos hsp]
            simpa [IterResult.state] using hinv
          · rw [if_neg hsp]
            simpa [IterResult.state] using hinv
    · rw [if_neg hno]
      simpa [IterResult.state] using hinv

/-- Counterexample to C1 as stated: the configuration satisfies the
startup preconditions (destination size 4 > 0 and bs_min 2 ≤ 4) with
blockSizeMax 8 exceeding the destination; a full read of a chunk of 8
reaches the write step, the saturating offset range makes o = 0, and the
attempted write (0, 8) extends 4 bytes past the end of the destination. -/
theorem c1_counterexample :
    c1cfg.output_size = 4 ∧ 0 < c1cfg.output_size ∧ c1cfg.bs_min ≤ c1cfg.output_size ∧
      c1cfg.bs_max = 8 ∧
      (iterate c1cfg c1env (initLoopState [])).state.writes = [(0, 8)] ∧
      ¬ (0 + 8 ≤ c1cfg.output_size) :=
  ⟨rfl, by decide, by decide, rfl, rfl, by decide⟩

/-- Witness for c1_theorem at a configuration with bs_max ≤ output_size
and a full read. -/
theorem c1_witness :
    (cfgW1.bs_min ≤ cfgW1.bs_max ∧ cfgW1.bs_max ≤ cfgW1.output_size) ∧
      writesInBounds cfgW1.output_size
        (iterate cfgW1 envW1 (initLoopState [])).state.writes :=
  ⟨by decide,
    c1_theorem cfgW1 envW1 (initLoopState []) (by decide) (by decide)
      (by intro b hb; simp [envW1] at hb)
      (by intro w hw; simp [initLoopState] at hw)⟩

/-!  C2: the conv=sync zero-padding of a short end-of-stream read. -/

/-- C2 at the failing input: conv=sync set, chunk size 4, end of stream
with 2 bytes remaining.  The source zero-pads the buffer tail
(main.rs:324-328) but then yields bytes_read = 2 as actual_read
(main.rs:330), so the written block is 2 bytes long and bytesCopied grows
by 2 — not the treated-as-full-size 4 the claim (and the padding itself)
call for. -/
theorem c2_code_bug :
    c2cfg.sync = true ∧
      chooseChunkSize c2cfg.bs_min c2cfg.bs_max c2env.rngChunk = 4 ∧
      (iterate c2cfg c2env (initLoopState [])).state.writes = [(0, 2)] ∧
      (iterate c2cfg c2env (initLoopState [])).state.bytesCopied = 2 :=
  ⟨rfl, rfl, rfl, rfl⟩

/-!  C3: destination-error handling under conv=noerror. -/

/-- C3 (amended): when conv=noerror is set and an iteration reaches the
write step with actualRead = n, a destination seek failure still aborts
the run fatally (main.rs:353-355 propagates it regardless of noerror);
and when the seek succeeds the iteration always runs to completion and is
counted — blocksProcessed gains 1, bytesCopied gains n, the write is
attempted at some offset pos, and in BitArray mode the bitmap bit for pos
is flipped — even if the write or flush failed (main.rs:357-379). -/
theorem c3_theorem (cfg : EngineCfg) (env : IterEnv) (st : LoopState) (n : Nat)
    (hno : cfg.noerror = true) (har : actualReadOf cfg env = some n) :
    (env.seekOk = false → ∃ stf, iterate cfg env st = .fatal .outputSeekFailed stf) ∧
    (env.seekOk = true → ∃ pos st',
      iterate cfg env st = .next st' ∧
      st'.blocksProcessed = (st.blocksProcessed + 1) % U64 ∧
      st'.bytesCopied = (st.bytesCopied + n) % U64 ∧
      st'.writes = st.writes ++ [(pos, n)] ∧
      st'.bitarray = (if cfg.status_level = StatusLevel.bitArray then
        flip_bit st.bitarray (pos / cfg.bs_min) else st.bitarray)) := by
  obtain ⟨r, hit⟩ := iterate_reaches_write cfg env st n hno har
  constructor
  · intro hs
    exact ⟨_, by rw [hit, writePhase_seekFail _ _ _ _ hs]⟩
  · intro hs
    rw [hit, writePhase_spec _ _ _ _ hs hno]
    exact ⟨genRange 0 (cfg.output_size - n) env.rngPos, _, rfl, rfl, rfl, rfl, rfl⟩

/-- Counterexample to C3 as stated: conv=noerror set and the destination
write fails, yet the iteration is counted in full — blocksProcessed goes
0 to 1, bytesCopied 0 to 2, and the bitmap bit is flipped ([0] to [1]). -/
theorem c3_counterexample :
    c3cfg.noerror = true ∧ c3env.writeOk = false ∧
      iterate c3cfg c3env (initLoopState [0]) =
        .next { blocksProcessed := 1, bytesCopied := 2, reads := 1,
                writes := [(0, 2)], bitarray := [1] } :=
  ⟨rfl, rfl, rfl⟩

/-- Witness for c3_theorem at a successful-write iteration. -/
theorem c3_witness :
    (cfgW3.noerror = true ∧ actualReadOf cfgW3 envW3 = some 3 ∧ envW3.seekOk = true) ∧
      (∃ pos st', iterate cfgW3 envW3 (initLoopState []) = .next st' ∧
        st'.blocksProcessed = ((initLoopState []).blocksProcessed + 1) % U64 ∧
        st'.bytesCopied = ((initLoopState []).bytesCopied + 3) % U64 ∧
        st'.writes = (initLoopState []).writes ++ [(pos, 3)] ∧
        st'.bitarray = (if cfgW3.status_level = StatusLevel.bitArray then
          flip_bit (initLoopState []).bitarray (pos / cfgW3.bs_min)
          else (initLoopState []).bitarray)) :=
  ⟨⟨rfl, rfl, rfl⟩, (c3_theorem cfgW3 envW3 (initLoopState []) 3 rfl rfl).2 rfl⟩

/-!  C4: source-error handling under conv=noerror. -/

/-- C4 (amended): with conv=noerror set the error of the initial
read_exact never aborts the run — no iteration returns the
inputReadError fatality; a read error with zeroFillOnError unset and
working input position/seek makes the loop skip forward and retry
without writing or counting anything; and a read error with
zeroFillOnError set proceeds to the write phase with a full-size
(zero-filled) block.  However, an error of the second, short read after
an apparent end of stream — and of the position query or skip seek —
still aborts even under noerror (main.rs:316-318, 339-344); see the
counterexample. -/
theorem c4_theorem (cfg : EngineCfg) (env : IterEnv) (st : LoopState)
    (hno : cfg.noerror = true) :
    (∀ stf, iterate cfg env st ≠ .fatal .inputReadError stf) ∧
    (env.readRes = .err → cfg.sync = false → env.posOk = true → env.seekPastOk = true →
      iterate cfg env st = .next { st with reads := st.reads + 1 }) ∧
    (env.readRes = .err → cfg.sync = true →
      iterate cfg env st = writePhase cfg env { st with reads := st.reads + 1 }
        (chooseChunkSize cfg.bs_min cfg.bs_max env.rngChunk)) := by
  refine ⟨?_, ?_, ?_⟩
  · intro stf h
    cases hr : env.readRes
    case full =>
      simp only [iterate, hr] at h
      rcases writePhase_fatal_reason cfg env _ _ _ _ h with h' | h' | h' <;> cases h'
    case eofThen b =>
      simp only [iterate, hr] at h
      by_cases hb0 : b = 0
      · rw [if_pos hb0] at h
        cases h
      · rw [if_neg hb0] at h
        rcases writePhase_fatal_reason cfg env _ _ _ _ h with h' | h' | h' <;> cases h'
    case eofThenFail =>
      simp only [iterate, hr] at h
      cases h
    case err =>
      simp only [iterate, hr] at h
      rw [if_pos hno] at h
      by_cases hsy : cfg.sync = true
      · rw [if_pos hsy] at h
        rcases writePhase_fatal_reason cfg env _ _ _ _ h with h' | h' | h' <;> cases h'
      · rw [if_neg hsy] at h
        split_ifs at h <;> cases h
  · intro hr hsy hpos hsp
    simp only [iterate, hr]
    rw [if_pos hno, if_neg (by simp [hsy]), if_neg (by simp [hpos]),
      if_neg (by simp [hsp])]
  · intro hr hsy
    simp only [iterate, hr]
    rw [if_pos hno, if_pos hsy]

/-- Counterexample to C4 as stated: conv=noerror is set, yet a failure
of the second, short read after an apparent end of stream aborts the run
with a fatal error. -/
theorem c4_counterexample :
    c4cfg.noerror = true ∧
      iterate c4cfg c4env (initLoopState []) =
        .fatal .secondReadFailed { initLoopState [] with reads := 2 } :=
  ⟨rfl, rfl⟩

/-- Witness for c4_theorem: a true read error under noerror without sync
skips forward and continues without writing or counting. -/
theorem c4_witness :
    (cfgW4.noerror = true ∧ envW4.readRes = ReadOutcome.err ∧ cfgW4.sync = false) ∧
      iterate cfgW4 envW4 (initLoopState []) =
        .next { initLoopState [] with reads := (initLoopState []).reads + 1 } :=
  ⟨⟨rfl, rfl, rfl⟩, (c4_theorem cfgW4 envW4 (initLoopState []) rfl).2.1 rfl rfl rfl rfl⟩

/-!  C7: termination with a block cap. -/

theorem runLoop_counts (cfg : EngineCfg) (envs : Nat → IterEnv) (N : Nat)
    (hmb : cfg.max_blocks = some N) (hN : N < U64)
    (hok : ∀ k, (envs k).readRes = .full ∧ (envs k).seekOk = true ∧
      (envs k).writeOk = true ∧ (envs k).flushOk = true) :
    ∀ d i st, st.blocksProcessed + d = N →
      ∃ st', runLoop cfg envs (d + 1) i st = .done st' ∧
        st'.blocksProcessed = N ∧ st'.reads = st.reads + d ∧
        st'.writes.length = st.writes.length + d := by
  intro d
  induction d with
  | zero =>
    intro i st h
    refine ⟨st, ?_, by omega, rfl, rfl⟩
    have hstop : stopNow cfg.max_blocks st.blocksProcessed = true := by
      rw [hmb]
      simp only [stopNow, decide_eq_true_eq]
      omega
    simp [runLoop, hstop]
  | succ d ih =>
    intro i st h
    have hstop : stopNow cfg.max_blocks st.blocksProcessed = false := by
      rw [hmb]
      simp only [stopNow, decide_eq_false_iff_not]
      omega
    obtain ⟨h1, h2, h3, h4⟩ := hok i
    obtain ⟨st1, hit, hb, hrds, hwl⟩ := iterate_full_spec cfg (envs i) st h1 h2 h3 h4
    have hb' : st1.blocksProcessed = st.blocksProcessed + 1 := by
      rw [hb, Nat.mod_eq_of_lt (by omega)]
    obtain ⟨st', hrl, hbn, hrd2, hwl2⟩ := ih (i + 1) st1 (by omega)
    refine ⟨st', ?_, hbn, by omega, by omega⟩
    show runLoop cfg envs (d + 1 + 1) i st = .done st'
    unfold runLoop
    rw [hstop]
    simp only [Bool.false_eq_true, if_false]
    rw [hit]
    exact hrl

/-- C7: with maxBlocks = N (a u64 value, so N < 2^64) and a source that
always supplies full reads while every destination operation succeeds,
the loop terminates normally with blocksProcessed exactly N, having
performed exactly N reads — the termination check at the top of each
round runs before the read, so no extra read happens — and logged
exactly N writes. -/
theorem c7_theorem (cfg : EngineCfg) (envs : Nat → IterEnv) (N : Nat) (ba : List Nat)
    (hmb : cfg.max_blocks = some N) (hN : N < U64)
    (hok : ∀ k, (envs k).readRes = .full ∧ (envs k).seekOk = true ∧
      (envs k).writeOk = true ∧ (envs k).flushOk = true) :
    ∃ st', runLoop cfg envs (N + 1) 0 (initLoopState ba) = .done st' ∧
      st'.blocksProcessed = N ∧ st'.reads = N ∧ st'.writes.length = N := by
  obtain ⟨st', h1, h2, h3, h4⟩ :=
    runLoop_counts cfg envs N hmb hN hok N 0 (initLoopState ba) (by simp [initLoopState])
  exact ⟨st', h1, h2, by simpa [initLoopState] using h3, by simpa [initLoopState] using h4⟩

/-- Witness for c7_theorem with count = 2 and a constant environment. -/
theorem c7_witness :
    ∃ st', runLoop cfgW7 (fun _ => envW7) (2 + 1) 0 (initLoopState []) = .done st' ∧
      st'.blocksProcessed = 2 ∧ st'.reads = 2 ∧ st'.writes.length = 2 :=
  c7_theorem cfgW7 (fun _ => envW7) 2 [] rfl (by norm_num [U64])
    (fun k => ⟨rfl, rfl, rfl, rfl⟩)

/-!  C9: when configuration errors are detected relative to I/O. -/

/-- C9 (amended): block-size-range and status-level configuration errors
are raised by RandomDd::new before any I/O at all — the program then
returns with an empty I/O trace, whatever the environment.  Every error
raised in the pre-loop phase of run — including the configuration
errors the source checks only after opening both files and seeking the
input: zero-size destination, block size larger than the destination,
and a bad speed string — leaves the program's result independent of the
per-iteration loop environment and of the fuel: the copy loop never ran,
so no source read and no destination write took place (though, per the
counterexample, the file opens did). -/
theorem c9_theorem (args : ArgsModel) (env : SetupEnv) (envs envs' : Nat → IterEnv)
    (fuel fuel' : Nat) :
    (∀ e, RandomDd_new args = .error e →
      mainRun args env envs fuel = ([], .error (.cfg e))) ∧
    (∀ e, (mainRun args env envs fuel).2 = .error e →
      mainRun args env envs' fuel' = mainRun args env envs fuel) := by
  constructor
  · intro e he
    simp [mainRun, he]
  · intro e he
    unfold mainRun at he ⊢
    cases hn : RandomDd_new args with
    | error e' =>
      simp only [hn] at he ⊢
    | ok dd =>
      simp only [hn] at he ⊢
      rcases hsp : setupPhase dd env with ⟨evs, res⟩
      simp only [hsp] at he ⊢
      cases res with
      | error re => rfl
      | ok osz => simp at he

/-- Counterexample to C9 as stated: a bad size string for the speed
limit is a configuration error, yet by the time the run fails with it
the source and the destination have both been opened and the destination
metadata queried — the claim's "performs no source open ... and no
destination open" is false. -/
theorem c9_counterexample :
    mainRun argsC9 envC9 (fun _ => iterC9) 1 =
      ([IOEvent.openInput, IOEvent.openOutput, IOEvent.queryMetadata],
        .error (.run (.speedParseFailed .unknownSuffix))) ∧
      IOEvent.openInput ∈ (mainRun argsC9 envC9 (fun _ => iterC9) 1).1 := by
  have h : mainRun argsC9 envC9 (fun _ => iterC9) 1 =
      ([IOEvent.openInput, IOEvent.openOutput, IOEvent.queryMetadata],
        .error (.run (.speedParseFailed .unknownSuffix))) := rfl
  refine ⟨h, ?_⟩
  rw [h]
  simp

/-- Witness for c9_theorem: an inverted block-size range aborts in
RandomDd::new with an empty I/O trace. -/
theorem c9_witness :
    mainRun argsW9 envW9 (fun _ => iterC9) 1 =
      ([], .error (.cfg (.bsRange .rangeMinGtMax))) :=
  (c9_theorem argsW9 envW9 (fun _ => iterC9) (fun _ => iterC9) 1 1).1
    (.bsRange .rangeMinGtMax) rfl

end Randd
